import Mathlib

/-!
Verification development for a chat backend (`main.py`): a Redis-backed chat
store with bounded (LTRIM-trimmed) history, a hybrid language detector
(statistical detector plus romanized-Hindi keyword heuristic), and a streaming
completion pipeline that commits the whitespace-normalized reply to history.

The Python source is shallowly embedded: the Redis store becomes an explicit
`Store` record, each handler/helper a pure Lean function.  Nondeterministic
external inputs (the statistical detector's result, the uuid string, clock
values, the provider's stream outcome) are passed as explicit parameters.
-/

namespace Ira

/-! ### Python string helpers

`re.sub(r"\s+", " ", s).strip()` and `str.strip()` are modelled over ASCII
whitespace (space, tab, newline, carriage return, vertical tab, form feed);
the source's regex additionally matches rare Unicode whitespace characters,
which we elide.  Likewise `str.lower()` is modelled as ASCII lowercasing. -/

def pyIsSpace (c : Char) : Bool :=
  c = ' ' || c = '\t' || c = '\n' || c = '\r' || c = '\x0b' || c = '\x0c'

/-- One step of `re.sub(r"\s+", " ", ·)`: the first character of each maximal
whitespace run becomes a single space, later characters of the run vanish. -/
def collapseWsAux : Bool → List Char → List Char
  | _, [] => []
  | prevSpace, c :: rest =>
    if pyIsSpace c then
      (if prevSpace then [] else [' ']) ++ collapseWsAux true rest
    else c :: collapseWsAux false rest

/-- Model of `re.sub(r"\s+", " ", s)`. -/
def re_sub_ws (s : String) : String := String.mk (collapseWsAux false s.data)

/-- Python `str.strip()` -/
def pyStrip (s : String) : String :=
  String.mk (((s.data.dropWhile pyIsSpace).reverse.dropWhile pyIsSpace).reverse)

/-- Model of `re.sub(r"\s+", " ", collected).strip()` (main.py line 206). -/
def normalize_ws (s : String) : String := pyStrip (re_sub_ws s)

/-- Python `str.lower()` (ASCII) -/
def pyLower (s : String) : String := String.mk (s.data.map Char.toLower)

/-- A character matched by the regex class `[a-zA-Z']`. -/
def isWordChar (c : Char) : Bool :=
  ('a' ≤ c && c ≤ 'z') || ('A' ≤ c && c ≤ 'Z') || c = '\''

/-- Accumulator-based `re.findall(r"[a-zA-Z']+", ·)`: maximal runs of word
characters, in order.  The first argument holds the current run reversed. -/
def tokenizeAux : List Char → List Char → List String
  | cur, [] => if cur.isEmpty then [] else [String.mk cur.reverse]
  | cur, c :: rest =>
    if isWordChar c then tokenizeAux (c :: cur) rest
    else if cur.isEmpty then tokenizeAux [] rest
    else String.mk cur.reverse :: tokenizeAux [] rest

/-- Model of `re.findall(r"[a-zA-Z']+", text.lower())` (main.py line 64). -/
def findall_words (text : String) : List String :=
  tokenizeAux [] (pyLower text).data

/-! ### Language detector (main.py lines 53-73) -/

/-- The romanized-Hindi keyword set (main.py lines 59-63).  The Python source
writes the literal `"kya"` twice; as a set it holds these 23 words. -/
def hindi_keywords : List String :=
  ["kya", "kaise", "hai", "hain", "nahi", "haan", "tum", "mera", "tera",
   "kyu", "kyon", "batao", "pyaar", "yaar", "acha", "theek", "samjha", "kar",
   "kuch", "kal", "abhi", "chalo", "bolo"]

/-- The English function-word set (main.py line 66). -/
def eng_keywords : List String :=
  ["i", "you", "the", "is", "are", "love", "good", "ok", "what", "how", "do"]

/-- Count `hindi_hits = sum(1 for w in words if w in hindi_keywords)`. -/
def hindi_hits (text : String) : Nat :=
  (findall_words text).countP (fun w => hindi_keywords.contains w)

/-- Count `eng_hits = sum(1 for w in words if w in the English set)`. -/
def eng_hits (text : String) : Nat :=
  (findall_words text).countP (fun w => eng_keywords.contains w)

/-- The statistical detector's code: `try: code = detect(text) except: code = "en"`.
`none` models the detector raising; `some c` models it returning `c`. -/
def stat_code (detected : Option String) : String :=
  match detected with
  | some c => c
  | none => "en"

/-- Model of `detect_lang_safe` (main.py lines 53-73), with the external `langdetect`
call abstracted into the `detected` parameter. -/
def detect_lang_safe (detected : Option String) (text : String) : String :=
  let code := stat_code detected
  if code.startsWith "hi" ∨ 2 ≤ hindi_hits text then "hi"
  else if hindi_hits text ≠ 0 ∧ eng_hits text ≠ 0 then "hi"
  else "en"

/-! ### Data model and Redis store (main.py lines 34, 42-50)

Redis holds three kinds of keys: the per-user chat list (a JSON-encoded list
under `user:{uid}:chats`), per-chat message history (a Redis list of
JSON-encoded messages under `chat:{uid}:{cid}:history`), and the per-user
language (a plain string under `user:{uid}:lang`).  JSON (de)serialization is
a faithful round-trip, so the store keeps the structured records directly;
`none` / absence of a key corresponds to Redis `GET` returning nil and a
Redis list being empty. -/

/-- A chat-list entry `{"chat_id": ..., "title": ..., "created": ...}`. -/
structure ChatRec where
  chat_id : String
  title : String
  created : Nat
deriving DecidableEq, Repr

/-- A history entry `{"role": ..., "content": ..., "ts": ...}`. -/
structure Message where
  role : String
  content : String
  ts : Nat
deriving DecidableEq, Repr

/-- The Redis keyspace, split by value kind. -/
structure Store where
  chatLists : String → Option (List ChatRec)
  histories : String → List Message
  langs : String → Option String

def emptyStore : Store :=
  { chatLists := fun _ => none, histories := fun _ => [], langs := fun _ => none }

def user_chats_key (uid : String) : String := "user:" ++ uid ++ ":chats"

def chat_history_key (uid cid : String) : String :=
  "chat:" ++ uid ++ ":" ++ cid ++ ":history"

def user_lang_key (uid : String) : String := "user:" ++ uid ++ ":lang"

/-- The inclusive index range shared by Redis `LTRIM` and `LRANGE`: negative
indices count from the end, out-of-range starts give the empty list. -/
def redis_slice (l : List Message) (start stop : Int) : List Message :=
  let len : Int := l.length
  let s := if start < 0 then len + start else start
  let e := if stop < 0 then len + stop else stop
  if e < 0 then [] else (l.take (e.toNat + 1)).drop s.toNat

/-- Resolution `title = title or the default ordinal label` (main.py line 78); Python's
`or` treats an absent and an empty title alike. -/
def resolve_title (title : Option String) (n : Nat) : String :=
  match title with
  | some t => if t = "" then "Chat " ++ toString (n + 1) else t
  | none => "Chat " ++ toString (n + 1)

/-- Model of `create_chat_for_user` (main.py lines 75-81).  `u` is the external
`str(uuid.uuid4())` string and `ts` the `time.time()` value.  The slice
`str(uuid.uuid4())[:8]` is written over the character list (by Batteries'
`String.take_eq` this is exactly `u.take 8`). -/
def create_chat_for_user (uid : String) (title : Option String) (u : String)
    (ts : Nat) (st : Store) : String × Store :=
  let cid := String.mk (u.data.take 8)
  let chatlist := (st.chatLists (user_chats_key uid)).getD []
  let t := resolve_title title chatlist.length
  let chatlist2 := chatlist ++ [⟨cid, t, ts⟩]
  (cid,
   { st with chatLists :=
      fun k => if k = user_chats_key uid then some chatlist2 else st.chatLists k })

/-- Model of `list_user_chats` (main.py lines 83-84): `r.get(...) or "[]"`. -/
def list_user_chats (uid : String) (st : Store) : List ChatRec :=
  (st.chatLists (user_chats_key uid)).getD []

/-- Model of `append_message` (main.py lines 86-90): `RPUSH` one message, then
`LTRIM key -MAX_CONTEXT -1`.  `N` is the configured `MAX_CONTEXT`
(default 20). -/
def append_message (N : Nat) (uid cid role content : String) (ts : Nat)
    (st : Store) : Store :=
  let key := chat_history_key uid cid
  let pushed := st.histories key ++ [⟨role, content, ts⟩]
  let trimmed := redis_slice pushed (-(N : Int)) (-1)
  { st with histories := fun k => if k = key then trimmed else st.histories k }

/-- Model of `get_chat_history` (main.py lines 92-95): `LRANGE key 0 -1`. -/
def get_chat_history (uid cid : String) (st : Store) : List Message :=
  redis_slice (st.histories (chat_history_key uid cid)) 0 (-1)

/-- A whole sequence of `append_message` calls on one chat, in order. -/
def append_many (N : Nat) (uid cid : String) (msgs : List Message)
    (st : Store) : Store :=
  msgs.foldl (fun s m => append_message N uid cid m.role m.content m.ts s) st

/-- The last `n` entries of a list (what `LTRIM key -n -1` retains for
`n ≥ 1`). -/
def takeLast (n : Nat) (l : List α) : List α := l.drop (l.length - n)

/-! ### The send-message pipeline (main.py lines 136-210) -/

/-- The canned fallback reply (main.py line 186). -/
def fallback_text : String := "Sorry, thoda issue ho gaya, try again"

/-- Outcome of invoking the external completion provider.
`invokeFail` models `genai.GenerativeModel(...)` / `generate_content`
raising before streaming starts; `stream pieces err` models a started
stream delivering `pieces` (each `chunk.text`, or `str(chunk)`) and then
either ending normally (`err = none`) or raising mid-stream with message
`err = some e`. -/
inductive ProviderOutcome where
  | invokeFail : ProviderOutcome
  | stream : List String → Option String → ProviderOutcome
deriving DecidableEq, Repr

/-- Model of `event_stream` (main.py lines 190-208): yields each piece (plus a
diagnostic fragment on a mid-stream error), then in `finally` normalizes
the accumulated text and, if non-empty, commits it as one assistant
message.  Returns (fragments yielded to the client, store afterwards). -/
def event_stream (N : Nat) (uid cid : String) (ts : Nat)
    (pieces : List String) (err : Option String) (st : Store) :
    List String × Store :=
  let yields := pieces ++ (match err with
    | some e => ["\n[Error: " ++ e ++ "]"]
    | none => [])
  let collected := String.join pieces
  let final := normalize_ws collected
  let st2 := if final = "" then st
    else append_message N uid cid "assistant" final ts st
  (yields, st2)

/-- An apostrophe, as a string. -/
def apos : String := String.mk ['\'']

/-- The completion prompt (main.py lines 168-179). -/
def build_prompt (history : List Message) (user_lang user_msg : String) :
    String :=
  let context_lines := history.map (fun m => m.role ++ ": " ++ m.content)
  let context_text := String.intercalate "\n" context_lines
  "You are Ira, a warm and affectionate companion. Follow these rules strictly:\n"
  ++ "- Reply in 5 to 10 words only.\n"
  ++ "- Keep responses incomplete (do not end with a final punctuation).\n"
  ++ "- Tone: friendly, caring, sometimes romantic when appropriate; add emoji naturally.\n"
  ++ "- Sound like a close friend and ask gentle follow-up questions when needed.\n"
  ++ "- Mirror the user" ++ apos ++ "s language. The user" ++ apos
  ++ "s last language code: " ++ user_lang ++ "\n"
  ++ "- Avoid repeating earlier assistant replies.\n"
  ++ "- Use the conversation context below.\n\n"
  ++ "Conversation:\n" ++ context_text ++ "\n\nUser: " ++ user_msg ++ "\nAssistant:"

/-- Model of `r.set(user_lang_key(uid), lang)` (main.py line 155). -/
def lang_set (uid lang : String) (st : Store) : Store :=
  { st with langs := fun k => if k = user_lang_key uid then some lang else st.langs k }

/-- The JSON body of a `/api/send` request; `none` fields are absent keys. -/
structure SendRequest where
  uid : Option String
  chat_id : Option String
  message : Option String

/-- Model of `api_send` (main.py lines 136-210).  External inputs are parameters:
`detected` the statistical detector's result on the stripped message,
`u` the uuid string used if a chat must be created, `ts` the clock, and
`provider` the completion provider's outcome.  Returns
(`Except.error 400` for the `HTTPException`, or the streamed response
fragments) together with the store after the request completes. -/
def api_send (N : Nat) (req : SendRequest) (detected : Option String)
    (u : String) (ts : Nat) (provider : ProviderOutcome) (st : Store) :
    Except Nat (List String) × Store :=
  let uid := req.uid.getD "demo_user"
  let user_msg := pyStrip (req.message.getD "")
  if user_msg = "" then (Except.error 400, st)
  else
    let created : String × Store := match req.chat_id with
      | none => create_chat_for_user uid none u ts st
      | some c => if c = "" then create_chat_for_user uid none u ts st else (c, st)
    let cid := created.1
    let st1 := created.2
    let st2 := append_message N uid cid "user" user_msg ts st1
    let detected_lang := detect_lang_safe detected user_msg
    let st3 := lang_set uid detected_lang st2
    let history := get_chat_history uid cid st3
    let user_lang := (st3.langs (user_lang_key uid)).getD "en"
    let _prompt := build_prompt history user_lang user_msg
    match provider with
    | .invokeFail =>
      let st4 := append_message N uid cid "assistant" fallback_text ts st3
      (Except.ok [fallback_text], st4)
    | .stream pieces err =>
      let out := event_stream N uid cid ts pieces err st3
      (Except.ok out.1, out.2)

/-- The store after `api_send`'s user-turn bookkeeping (append the user
message, then persist the detected language), before the provider call. -/
def st_after_user_turn (N : Nat) (uid cid msg : String) (detected : Option String)
    (ts : Nat) (st : Store) : Store :=
  lang_set uid (detect_lang_safe detected msg)
    (append_message N uid cid "user" msg ts st)

/-- All fragments a provider outcome makes `api_send` stream to the client. -/
def response_fragments (p : ProviderOutcome) : List String :=
  match p with
  | .invokeFail => [fallback_text]
  | .stream pieces err => pieces ++ (match err with
    | some e => ["\n[Error: " ++ e ++ "]"]
    | none => [])

/-- The assistant text a provider outcome makes `api_send` persist
(`none` when nothing is committed). -/
def assistant_commit (p : ProviderOutcome) : Option String :=
  match p with
  | .invokeFail => some fallback_text
  | .stream pieces _ =>
    let f := normalize_ws (String.join pieces)
    if f = "" then none else some f

/-- A concrete send call whose provider fails mid-stream after one
fragment: provider yields "Hi", then raises "boom". -/
def c6_call : Except Nat (List String) × Store :=
  api_send 20 ⟨some "u1", some "c1", some "hello"⟩ none "abcdefgh" 0
    (.stream ["Hi"] (some "boom")) emptyStore

/-! ### Helper lemmas about the Redis slice and trailing windows -/

theorem redis_slice_all (l : List Message) : redis_slice l 0 (-1) = l := by
  unfold redis_slice
  cases l with
  | nil => simp
  | cons a t =>
    simp only [List.length_cons]
    rw [if_pos (show ((-1) : Int) < 0 by omega),
      if_neg (show ¬((0 : Int) < 0) by omega),
      if_neg (show ¬(((t.length + 1 : Nat) : Int) + -1 < 0) by omega)]
    have h2 : (((t.length + 1 : Nat) : Int) + -1).toNat + 1 = t.length + 1 := by omega
    rw [h2, show ((0 : Int)).toNat = 0 from rfl, List.drop_zero,
      ← List.length_cons a t, List.take_length]

theorem redis_slice_neg (N : Nat) (hN : 1 ≤ N) (l : List Message) :
    redis_slice l (-(N : Int)) (-1) = takeLast N l := by
  unfold redis_slice takeLast
  cases l with
  | nil => simp
  | cons a t =>
    simp only [List.length_cons]
    rw [if_pos (show ((-1) : Int) < 0 by omega),
      if_pos (show -(N : Int) < 0 by omega),
      if_neg (show ¬(((t.length + 1 : Nat) : Int) + -1 < 0) by omega)]
    have h2 : (((t.length + 1 : Nat) : Int) + -1).toNat + 1 = t.length + 1 := by omega
    have h3 : (((t.length + 1 : Nat) : Int) + -(N : Int)).toNat = t.length + 1 - N := by
      omega
    rw [h2, h3, ← List.length_cons a t, List.take_length]

theorem takeLast_length_le (n : Nat) (l : List α) : (takeLast n l).length ≤ n := by
  simp only [takeLast, List.length_drop]; omega

theorem takeLast_of_length_le (n : Nat) (l : List α) (h : l.length ≤ n) :
    takeLast n l = l := by
  simp only [takeLast, Nat.sub_eq_zero_of_le h, List.drop_zero]

theorem takeLast_eq_rtake (n : Nat) (l : List α) : takeLast n l = l.rtake n := rfl

theorem takeLast_append_left (n : Nat) (l1 l2 : List α) :
    takeLast n (takeLast n l1 ++ l2) = takeLast n (l1 ++ l2) := by
  rw [takeLast_eq_rtake, takeLast_eq_rtake, takeLast_eq_rtake,
    List.rtake_eq_reverse_take_reverse, List.rtake_eq_reverse_take_reverse,
    List.rtake_eq_reverse_take_reverse, List.reverse_append, List.reverse_reverse,
    List.reverse_append]
  congr 1
  rw [List.take_append_eq_append_take, List.take_append_eq_append_take,
    List.take_take, Nat.min_eq_left (Nat.sub_le _ _)]

theorem getLast?_takeLast_concat (n : Nat) (hn : 1 ≤ n) (l : List α) (x : α) :
    (takeLast n (l ++ [x])).getLast? = some x := by
  have hk : (l ++ [x]).length - n ≤ l.length := by
    simp only [List.length_append, List.length_singleton]; omega
  rw [takeLast, List.drop_append_of_le_length hk, List.getLast?_concat]

theorem takeLast_ne_nil (n : Nat) (hn : 1 ≤ n) (l : List α) (hl : l ≠ []) :
    takeLast n l ≠ [] := by
  have hpos : 0 < l.length := List.length_pos.mpr hl
  have : 0 < (takeLast n l).length := by
    simp only [takeLast, List.length_drop]; omega
  exact List.length_pos.mp this

/-! ### Unfolding lemmas for the store operations -/

theorem append_message_histories_self (N : Nat) (hN : 1 ≤ N)
    (uid cid role content : String) (ts : Nat) (st : Store) :
    (append_message N uid cid role content ts st).histories
        (chat_history_key uid cid) =
      takeLast N (st.histories (chat_history_key uid cid) ++ [⟨role, content, ts⟩]) := by
  simp only [append_message, if_pos rfl]
  exact redis_slice_neg N hN _

theorem get_chat_history_eq (uid cid : String) (st : Store) :
    get_chat_history uid cid st = st.histories (chat_history_key uid cid) :=
  redis_slice_all _

theorem append_many_cons (N : Nat) (uid cid : String) (m : Message)
    (rest : List Message) (st : Store) :
    append_many N uid cid (m :: rest) st =
      append_many N uid cid rest (append_message N uid cid m.role m.content m.ts st) :=
  rfl

theorem append_many_concat (N : Nat) (uid cid : String) (l : List Message)
    (b : Message) (st : Store) :
    append_many N uid cid (l ++ [b]) st =
      append_message N uid cid b.role b.content b.ts (append_many N uid cid l st) := by
  unfold append_many
  rw [List.foldl_append, List.foldl_cons, List.foldl_nil]

theorem append_many_histories_self (N : Nat) (hN : 1 ≤ N) (uid cid : String)
    (msgs : List Message) (st : Store)
    (hlen : (st.histories (chat_history_key uid cid)).length ≤ N) :
    (append_many N uid cid msgs st).histories (chat_history_key uid cid) =
      takeLast N (st.histories (chat_history_key uid cid) ++ msgs) := by
  induction msgs generalizing st with
  | nil =>
    rw [List.append_nil]
    exact (takeLast_of_length_le N _ hlen).symm
  | cons m rest ih =>
    rw [append_many_cons]
    have hstep := append_message_histories_self N hN uid cid m.role m.content m.ts st
    have hm : (⟨m.role, m.content, m.ts⟩ : Message) = m := rfl
    rw [hm] at hstep
    rw [ih _ (by rw [hstep]; exact takeLast_length_le N _), hstep,
      takeLast_append_left, List.append_assoc, List.singleton_append]

/-- A result of `detect_lang_safe` is always `"hi"` or `"en"`. -/
theorem detect_lang_cases (detected : Option String) (text : String) :
    detect_lang_safe detected text = "hi" ∨ detect_lang_safe detected text = "en" := by
  simp only [detect_lang_safe]
  split_ifs with h1 h2
  · exact Or.inl rfl
  · exact Or.inl rfl
  · exact Or.inr rfl

/-! ### Claim theorems -/

/-- C1: for every user, chat and non-empty sequence of `append_message` calls
(any roles, contents and timestamps, from any starting store — hence after
each call of any sequence), the history returned by `get_chat_history` has
length at most the configured context window `N` (default 20). -/
theorem history_bounded_after_appends (N : Nat) (hN : 1 ≤ N) (uid cid : String)
    (msgs : List Message) (hmsgs : msgs ≠ []) (st : Store) :
    (get_chat_history uid cid (append_many N uid cid msgs st)).length ≤ N := by
  obtain ⟨L, b, rfl⟩ := msgs.eq_nil_or_concat'.resolve_left hmsgs
  rw [append_many_concat, get_chat_history_eq, append_message_histories_self N hN]
  exact takeLast_length_le N _

theorem history_bounded_after_appends_witness :
    (get_chat_history "u" "c"
      (append_many 20 "u" "c" [⟨"user", "hello", 0⟩] emptyStore)).length ≤ 20 :=
  history_bounded_after_appends 20 (by norm_num) "u" "c" [⟨"user", "hello", 0⟩]
    (by simp) emptyStore

/-- C2: appending `m1..mK` in order to an initially empty chat makes
`get_chat_history` return exactly the last `N` of them in original relative
order (all `K` when `K ≤ N`, exactly `N` when `K > N`). -/
theorem history_fifo_after_appends (N : Nat) (hN : 1 ≤ N) (uid cid : String)
    (msgs : List Message) (st : Store)
    (h0 : st.histories (chat_history_key uid cid) = []) :
    get_chat_history uid cid (append_many N uid cid msgs st) =
      msgs.drop (msgs.length - N)
    ∧ (msgs.length ≤ N →
        get_chat_history uid cid (append_many N uid cid msgs st) = msgs)
    ∧ (N < msgs.length →
        (get_chat_history uid cid (append_many N uid cid msgs st)).length = N) := by
  have hmain : get_chat_history uid cid (append_many N uid cid msgs st) =
      takeLast N msgs := by
    rw [get_chat_history_eq,
      append_many_histories_self N hN uid cid msgs st (by rw [h0]; simp),
      h0, List.nil_append]
  refine ⟨hmain, fun hle => ?_, fun hlt => ?_⟩
  · rw [hmain]; exact takeLast_of_length_le N _ hle
  · rw [hmain]; simp only [takeLast, List.length_drop]; omega

theorem history_fifo_after_appends_witness :
    get_chat_history "u" "c"
        (append_many 2 "u" "c"
          [⟨"user", "m1", 0⟩, ⟨"assistant", "m2", 1⟩, ⟨"user", "m3", 2⟩]
          emptyStore) =
      [⟨"assistant", "m2", 1⟩, ⟨"user", "m3", 2⟩] := by
  have h := history_fifo_after_appends 2 (by norm_num) "u" "c"
    [⟨"user", "m1", 0⟩, ⟨"assistant", "m2", 1⟩, ⟨"user", "m3", 2⟩] emptyStore rfl
  rw [h.1]; rfl

/-- C3: `detect_lang_safe` returns `"hi"` exactly when the statistical code
starts with `"hi"`, or `hindi_hits ≥ 2`, or `hindi_hits ≥ 1` together with
at least one English function-word hit; otherwise it returns `"en"`.  In
particular ≥2 Hindi-lexicon hits give `"hi"`, and one Hindi hit mixed with
an English function word gives `"hi"`. -/
theorem detect_lang_decision (detected : Option String) (text : String) :
    (detect_lang_safe detected text = "hi" ↔
      ((stat_code detected).startsWith "hi" = true ∨ 2 ≤ hindi_hits text ∨
        (1 ≤ hindi_hits text ∧ 1 ≤ eng_hits text)))
    ∧ (¬((stat_code detected).startsWith "hi" = true ∨ 2 ≤ hindi_hits text ∨
          (1 ≤ hindi_hits text ∧ 1 ≤ eng_hits text)) →
        detect_lang_safe detected text = "en")
    ∧ (2 ≤ hindi_hits text → detect_lang_safe detected text = "hi")
    ∧ (1 ≤ hindi_hits text → 1 ≤ eng_hits text →
        detect_lang_safe detected text = "hi") := by
  have hiff : detect_lang_safe detected text = "hi" ↔
      ((stat_code detected).startsWith "hi" = true ∨ 2 ≤ hindi_hits text ∨
        (1 ≤ hindi_hits text ∧ 1 ≤ eng_hits text)) := by
    simp only [detect_lang_safe]
    split_ifs with h1 h2
    · refine iff_of_true rfl ?_
      rcases h1 with h | h
      · exact Or.inl h
      · exact Or.inr (Or.inl h)
    · exact iff_of_true rfl (Or.inr (Or.inr ⟨by omega, by omega⟩))
    · constructor
      · intro h; exact absurd h (by decide)
      · rintro (hc | hc | ⟨hc1, hc2⟩)
        · exact absurd (Or.inl hc) h1
        · exact absurd (Or.inr hc) h1
        · exact absurd ⟨by omega, by omega⟩ h2
  refine ⟨hiff, fun hnc => ?_, fun hh => ?_, fun hh he => ?_⟩
  · rcases detect_lang_cases detected text with h | h
    · exact absurd (hiff.mp h) hnc
    · exact h
  · exact hiff.mpr (Or.inr (Or.inl hh))
  · exact hiff.mpr (Or.inr (Or.inr ⟨hh, he⟩))

theorem detect_lang_decision_witness :
    detect_lang_safe none "kya kaise ho" = "hi" ∧
    detect_lang_safe none "kya is love" = "hi" :=
  ⟨(detect_lang_decision none "kya kaise ho").2.2.1 (by decide),
   (detect_lang_decision none "kya is love").2.2.2 (by decide) (by decide)⟩

/-- C4: `detect_lang_safe` is total and pure: for every detector outcome and
input it returns exactly `"hi"` or `"en"`, and when the statistical routine
raises (`none`) the result is the same as if it had returned `"en"` — the
keyword heuristic still runs.  (Being a Lean function of its two arguments
alone, it is deterministic and side-effect free by construction.) -/
theorem detect_lang_total_pure (detected : Option String) (text : String) :
    (detect_lang_safe detected text = "hi" ∨ detect_lang_safe detected text = "en")
    ∧ detect_lang_safe none text = detect_lang_safe (some "en") text :=
  ⟨detect_lang_cases detected text, rfl⟩

/-- C5: on stream termination (normal or mid-stream error) the fragments
delivered are exactly the provider's pieces in order (plus one diagnostic
fragment on error); the accumulated text, whitespace-collapsed and stripped,
is committed as exactly one assistant message when non-empty and nothing is
committed when empty.  Fragments `"Hi "`, `"there\n"`, `" friend"` normalize
to `"Hi there friend"`. -/
theorem stream_commit_normalized (N : Nat) (hN : 1 ≤ N) (uid cid : String)
    (ts : Nat) (pieces : List String) (err : Option String) (st : Store) :
    (event_stream N uid cid ts pieces err st).1 =
      pieces ++ (match err with
        | some e => ["\n[Error: " ++ e ++ "]"]
        | none => [])
    ∧ (normalize_ws (String.join pieces) ≠ "" →
        (event_stream N uid cid ts pieces err st).2.histories
            (chat_history_key uid cid) =
          takeLast N (st.histories (chat_history_key uid cid) ++
            [⟨"assistant", normalize_ws (String.join pieces), ts⟩]))
    ∧ (normalize_ws (String.join pieces) = "" →
        (event_stream N uid cid ts pieces err st).2 = st)
    ∧ normalize_ws (String.join ["Hi ", "there\n", " friend"]) = "Hi there friend" := by
  have hsnd : (event_stream N uid cid ts pieces err st).2 =
      if normalize_ws (String.join pieces) = "" then st
      else append_message N uid cid "assistant"
        (normalize_ws (String.join pieces)) ts st := rfl
  refine ⟨rfl, fun hne => ?_, fun he => ?_, by decide⟩
  · rw [hsnd, if_neg hne, append_message_histories_self N hN]
  · rw [hsnd, if_pos he]

theorem stream_commit_normalized_witness :
    (event_stream 20 "u" "c" 7 ["Hi ", "there\n", " friend"] none
        emptyStore).2.histories (chat_history_key "u" "c") =
      [⟨"assistant", "Hi there friend", 7⟩] := by
  have h := stream_commit_normalized 20 (by norm_num) "u" "c" 7
    ["Hi ", "there\n", " friend"] none emptyStore
  rw [h.2.1 (by decide)]
  rfl


/-- Unfolding of `api_send` for a request with a non-empty message and an
explicitly supplied non-empty `chat_id`: no chat is created, the user turn is
appended, the detected language persisted, then the provider outcome decides
the response and the assistant commit. -/
theorem api_send_valid (N : Nat) (uidOpt : Option String) (cid msgtext : String)
    (hcid : cid ≠ "") (hmsg : pyStrip msgtext ≠ "") (detected : Option String)
    (u : String) (ts : Nat) (p : ProviderOutcome) (st : Store) :
    api_send N ⟨uidOpt, some cid, some msgtext⟩ detected u ts p st =
      (match p with
       | .invokeFail =>
         (Except.ok [fallback_text],
          append_message N (uidOpt.getD "demo_user") cid "assistant" fallback_text ts
            (st_after_user_turn N (uidOpt.getD "demo_user") cid (pyStrip msgtext)
              detected ts st))
       | .stream pieces err =>
         (Except.ok (event_stream N (uidOpt.getD "demo_user") cid ts pieces err
            (st_after_user_turn N (uidOpt.getD "demo_user") cid (pyStrip msgtext)
              detected ts st)).1,
          (event_stream N (uidOpt.getD "demo_user") cid ts pieces err
            (st_after_user_turn N (uidOpt.getD "demo_user") cid (pyStrip msgtext)
              detected ts st)).2)) := by
  unfold api_send
  rw [show (some msgtext).getD "" = msgtext from rfl, if_neg hmsg]
  simp only []
  rw [if_neg hcid]
  cases p <;> rfl

theorem st_after_user_turn_histories (N : Nat) (hN : 1 ≤ N)
    (uid cid msg : String) (detected : Option String) (ts : Nat) (st : Store) :
    (st_after_user_turn N uid cid msg detected ts st).histories
        (chat_history_key uid cid) =
      takeLast N (st.histories (chat_history_key uid cid) ++ [⟨"user", msg, ts⟩]) := by
  show (append_message N uid cid "user" msg ts st).histories (chat_history_key uid cid) = _
  exact append_message_histories_self N hN uid cid "user" msg ts st

theorem streamed_vs_persisted_amended (N : Nat) (hN : 1 ≤ N)
    (uidOpt : Option String) (cid msgtext : String) (hcid : cid ≠ "")
    (hmsg : pyStrip msgtext ≠ "") (detected : Option String) (u : String)
    (ts : Nat) (p : ProviderOutcome) (st : Store) :
    ((api_send N ⟨uidOpt, some cid, some msgtext⟩ detected u ts p st).1 =
        Except.ok (response_fragments p))
    ∧ ((api_send N ⟨uidOpt, some cid, some msgtext⟩ detected u ts p st).2.histories
          (chat_history_key (uidOpt.getD "demo_user") cid) =
        (match assistant_commit p with
         | none =>
           takeLast N
             (st.histories (chat_history_key (uidOpt.getD "demo_user") cid) ++
               [⟨"user", pyStrip msgtext, ts⟩])
         | some t =>
           takeLast N
             (takeLast N
               (st.histories (chat_history_key (uidOpt.getD "demo_user") cid) ++
                 [⟨"user", pyStrip msgtext, ts⟩]) ++ [⟨"assistant", t, ts⟩])))
    ∧ (p = .invokeFail → assistant_commit p = some (String.join (response_fragments p)))
    ∧ (∀ pieces, p = .stream pieces none →
        assistant_commit p =
          if normalize_ws (String.join (response_fragments p)) = "" then none
          else some (normalize_ws (String.join (response_fragments p))))
    ∧ (∀ pieces e, p = .stream pieces (some e) →
        assistant_commit p =
          if normalize_ws (String.join pieces) = "" then none
          else some (normalize_ws (String.join pieces))) := by
  rw [api_send_valid N uidOpt cid msgtext hcid hmsg detected u ts p st]
  cases p with
  | invokeFail =>
    refine ⟨rfl, ?_, fun _ => rfl, fun pieces h => ProviderOutcome.noConfusion h,
      fun pieces e h => ProviderOutcome.noConfusion h⟩
    show (append_message N (uidOpt.getD "demo_user") cid "assistant" fallback_text ts
        (st_after_user_turn N (uidOpt.getD "demo_user") cid (pyStrip msgtext)
          detected ts st)).histories
        (chat_history_key (uidOpt.getD "demo_user") cid) = _
    rw [append_message_histories_self N hN,
      st_after_user_turn_histories N hN]
    rfl
  | stream pieces err =>
    refine ⟨rfl, ?_, fun h => ProviderOutcome.noConfusion h, ?_, ?_⟩
    rotate_left
    · intro pieces' h
      injection h with h1 h2
      subst h1; subst h2
      simp only [assistant_commit, response_fragments, List.append_nil]
    · intro pieces' e' h
      injection h with h1 h2
      subst h1; subst h2
      simp only [assistant_commit]
    · by_cases hf : normalize_ws (String.join pieces) = ""
      · have hsnd : (event_stream N (uidOpt.getD "demo_user") cid ts pieces err
            (st_after_user_turn N (uidOpt.getD "demo_user") cid (pyStrip msgtext)
              detected ts st)).2 =
            st_after_user_turn N (uidOpt.getD "demo_user") cid (pyStrip msgtext)
              detected ts st := by
          show (if normalize_ws (String.join pieces) = "" then _ else _) = _
          rw [if_pos hf]
        show (event_stream N (uidOpt.getD "demo_user") cid ts pieces err
            (st_after_user_turn N (uidOpt.getD "demo_user") cid (pyStrip msgtext)
              detected ts st)).2.histories
            (chat_history_key (uidOpt.getD "demo_user") cid) = _
        rw [hsnd, st_after_user_turn_histories N hN]
        simp only [assistant_commit]
        rw [if_pos hf]
      · have hsnd : (event_stream N (uidOpt.getD "demo_user") cid ts pieces err
            (st_after_user_turn N (uidOpt.getD "demo_user") cid (pyStrip msgtext)
              detected ts st)).2 =
            append_message N (uidOpt.getD "demo_user") cid "assistant"
              (normalize_ws (String.join pieces)) ts
              (st_after_user_turn N (uidOpt.getD "demo_user") cid (pyStrip msgtext)
                detected ts st) := by
          show (if normalize_ws (String.join pieces) = "" then _ else _) = _
          rw [if_neg hf]
        show (event_stream N (uidOpt.getD "demo_user") cid ts pieces err
            (st_after_user_turn N (uidOpt.getD "demo_user") cid (pyStrip msgtext)
              detected ts st)).2.histories
            (chat_history_key (uidOpt.getD "demo_user") cid) = _
        rw [hsnd, append_message_histories_self N hN,
          st_after_user_turn_histories N hN]
        simp only [assistant_commit]
        rw [if_neg hf]
/-- C6 is false as stated: with provider fragments `["Hi"]` followed by a
mid-stream error `"boom"`, the client is streamed `"Hi"` and the diagnostic
fragment, but history persists only `"Hi"`, which differs from the streamed
text by more than whitespace normalization. -/
theorem streamed_vs_persisted_counterexample :
    c6_call.1 = Except.ok ["Hi", "\n[Error: boom]"]
    ∧ (get_chat_history "u1" "c1" c6_call.2).map Message.content = ["hello", "Hi"]
    ∧ normalize_ws (String.join ["Hi", "\n[Error: boom]"]) = "Hi [Error: boom]"
    ∧ ("Hi" : String) ≠ "Hi [Error: boom]"
    ∧ ("Hi" : String) ≠ String.join ["Hi", "\n[Error: boom]"] :=
  ⟨rfl, rfl, rfl, by decide, by decide⟩

theorem streamed_vs_persisted_amended_witness :
    (api_send 20 ⟨some "u1", some "c1", some "hello"⟩ none "abcdefgh" 0
        (.stream ["Hi"] (some "boom")) emptyStore).1 =
      Except.ok (response_fragments (.stream ["Hi"] (some "boom"))) :=
  (streamed_vs_persisted_amended 20 (by norm_num) (some "u1") "c1" "hello"
    (by decide) (by decide) none "abcdefgh" 0 (.stream ["Hi"] (some "boom"))
    emptyStore).1

/-- C7: when the provider cannot be invoked at all, the response stream is
exactly one fragment — the fixed fallback text — and that same text is
committed as the assistant turn, ending up as the most recent message of
`get_chat_history`. -/
theorem invoke_failure_fallback (N : Nat) (hN : 1 ≤ N) (uidOpt : Option String)
    (cid msgtext : String) (hcid : cid ≠ "") (hmsg : pyStrip msgtext ≠ "")
    (detected : Option String) (u : String) (ts : Nat) (st : Store) :
    (api_send N ⟨uidOpt, some cid, some msgtext⟩ detected u ts .invokeFail st).1 =
      Except.ok [fallback_text]
    ∧ (get_chat_history (uidOpt.getD "demo_user") cid
          (api_send N ⟨uidOpt, some cid, some msgtext⟩ detected u ts
            .invokeFail st).2).getLast? =
      some ⟨"assistant", fallback_text, ts⟩ := by
  rw [api_send_valid N uidOpt cid msgtext hcid hmsg detected u ts .invokeFail st]
  refine ⟨rfl, ?_⟩
  rw [get_chat_history_eq, append_message_histories_self N hN]
  exact getLast?_takeLast_concat N hN _ _

theorem invoke_failure_fallback_witness :
    (api_send 20 ⟨some "u1", some "c1", some "hello"⟩ none "abcdefgh" 3
        .invokeFail emptyStore).1 = Except.ok [fallback_text]
    ∧ (get_chat_history "u1" "c1"
          (api_send 20 ⟨some "u1", some "c1", some "hello"⟩ none "abcdefgh" 3
            .invokeFail emptyStore).2).getLast? =
      some ⟨"assistant", fallback_text, 3⟩ :=
  invoke_failure_fallback 20 (by norm_num) (some "u1") "c1" "hello" (by decide)
    (by decide) none "abcdefgh" 3 emptyStore

/-- C8: a send request whose message is missing, empty or whitespace-only is
rejected with HTTP 400 and the store is returned unchanged — no message
append, no chat creation, no language write. -/
theorem empty_message_rejected (N : Nat) (req : SendRequest)
    (detected : Option String) (u : String) (ts : Nat) (p : ProviderOutcome)
    (st : Store) (hmsg : pyStrip (req.message.getD "") = "") :
    api_send N req detected u ts p st = (Except.error 400, st) := by
  unfold api_send
  rw [if_pos hmsg]

theorem empty_message_rejected_witness :
    api_send 20 ⟨none, none, some "   "⟩ none "abcdefgh" 0 .invokeFail
        emptyStore = (Except.error 400, emptyStore) :=
  empty_message_rejected 20 ⟨none, none, some "   "⟩ none "abcdefgh" 0
    .invokeFail emptyStore (by decide)

/-- The chat-list cell written by `create_chat_for_user`. -/
theorem create_chat_chatLists_self (uid : String) (title : Option String)
    (u : String) (ts : Nat) (st : Store) :
    (create_chat_for_user uid title u ts st).2.chatLists (user_chats_key uid) =
      some (list_user_chats uid st ++
        [⟨String.mk (u.data.take 8),
          resolve_title title (list_user_chats uid st).length, ts⟩]) := by
  show (if user_chats_key uid = user_chats_key uid then some _ else _) = _
  rw [if_pos rfl]
  rfl

/-- C9: `create_chat_for_user` returns an 8-character identifier (the uuid
string has ≥ 8 characters) and appends one record with that id, the resolved
title (defaulting to `"Chat {n+1}"` for prior chat count `n`), and the
timestamp to the end of the user's chat list; `list_user_chats` returns that
list, and the empty list for a user with no chats. -/
theorem create_chat_spec (uid : String) (title : Option String) (u : String)
    (hu : 8 ≤ u.length) (ts : Nat) (st : Store) :
    (create_chat_for_user uid title u ts st).1.length = 8
    ∧ list_user_chats uid (create_chat_for_user uid title u ts st).2 =
        list_user_chats uid st ++
          [⟨(create_chat_for_user uid title u ts st).1,
            resolve_title title (list_user_chats uid st).length, ts⟩]
    ∧ (st.chatLists (user_chats_key uid) = none → list_user_chats uid st = []) := by
  refine ⟨?_, ?_, fun h => ?_⟩
  · show (String.mk (u.data.take 8)).length = 8
    simp only [String.length] at hu ⊢
    rw [List.length_take]
    omega
  · show ((create_chat_for_user uid title u ts st).2.chatLists
        (user_chats_key uid)).getD [] = _
    rw [create_chat_chatLists_self]
    rfl
  · show (st.chatLists (user_chats_key uid)).getD [] = []
    rw [h]
    rfl

theorem create_chat_spec_witness :
    (create_chat_for_user "u1" none "abcd1234-e" 5 emptyStore).1.length = 8
    ∧ list_user_chats "u1" (create_chat_for_user "u1" none "abcd1234-e" 5
        emptyStore).2 = [⟨"abcd1234", "Chat 1", 5⟩] := by
  have h := create_chat_spec "u1" none "abcd1234-e" (by decide) 5 emptyStore
  refine ⟨h.1, ?_⟩
  rw [h.2.1]
  rfl

/-- The generator `event_stream` never touches the chat-list keys. -/
theorem event_stream_chatLists (N : Nat) (uid cid : String) (ts : Nat)
    (pieces : List String) (err : Option String) (st : Store) (k : String) :
    (event_stream N uid cid ts pieces err st).2.chatLists k = st.chatLists k := by
  show (if normalize_ws (String.join pieces) = "" then st
    else append_message N uid cid "assistant"
      (normalize_ws (String.join pieces)) ts st).chatLists k = st.chatLists k
  split_ifs <;> rfl

/-- C10: `append_message` and `get_chat_history` never check that `cid`
belongs to the user's chat list: reading a never-written chat id yields `[]`,
appending under an arbitrary chat id succeeds (the trailing window is
written), and a send request supplying such a `chat_id` records history
under it while leaving the user's chat list — which never returns it —
unchanged. -/
theorem no_ownership_check (N : Nat) (hN : 1 ≤ N) (uid cid role content : String)
    (ts : Nat) :
    (∀ st : Store, st.histories (chat_history_key uid cid) = [] →
      get_chat_history uid cid st = [])
    ∧ (∀ st : Store,
        get_chat_history uid cid (append_message N uid cid role content ts st) =
          takeLast N (st.histories (chat_history_key uid cid) ++
            [⟨role, content, ts⟩]))
    ∧ (∀ (msgtext : String) (detected : Option String) (u : String)
        (p : ProviderOutcome) (st : Store), cid ≠ "" → pyStrip msgtext ≠ "" →
        list_user_chats uid
            (api_send N ⟨some uid, some cid, some msgtext⟩ detected u ts p st).2 =
          list_user_chats uid st
        ∧ get_chat_history uid cid
            (api_send N ⟨some uid, some cid, some msgtext⟩ detected u ts p st).2 ≠
          []) := by
  refine ⟨fun st h => ?_, fun st => ?_, fun msgtext detected u p st hc hm => ?_⟩
  · rw [get_chat_history_eq, h]
  · rw [get_chat_history_eq, append_message_histories_self N hN]
  · rw [api_send_valid N (some uid) cid msgtext hc hm detected u ts p st]
    cases p with
    | invokeFail =>
      refine ⟨rfl, ?_⟩
      rw [get_chat_history_eq]
      show (append_message N uid cid "assistant" fallback_text ts
        (st_after_user_turn N uid cid (pyStrip msgtext) detected ts st)).histories
          (chat_history_key uid cid) ≠ []
      rw [append_message_histories_self N hN]
      exact takeLast_ne_nil N hN _ (by simp)
    | stream pieces err =>
      constructor
      · show (list_user_chats uid
          ((event_stream N uid cid ts pieces err
            (st_after_user_turn N uid cid (pyStrip msgtext) detected ts st)).2)) = _
        show ((event_stream N uid cid ts pieces err
            (st_after_user_turn N uid cid (pyStrip msgtext) detected ts st)).2.chatLists
          (user_chats_key uid)).getD [] = _
        rw [event_stream_chatLists]
        rfl
      · by_cases hf : normalize_ws (String.join pieces) = ""
        · have hsnd : (event_stream N uid cid ts pieces err
              (st_after_user_turn N uid cid (pyStrip msgtext) detected ts st)).2 =
              st_after_user_turn N uid cid (pyStrip msgtext) detected ts st := by
            show (if normalize_ws (String.join pieces) = "" then _ else _) = _
            rw [if_pos hf]
          rw [get_chat_history_eq]
          show (event_stream N uid cid ts pieces err
            (st_after_user_turn N uid cid (pyStrip msgtext) detected ts st)).2.histories
              (chat_history_key uid cid) ≠ []
          rw [hsnd, st_after_user_turn_histories N hN]
          exact takeLast_ne_nil N hN _ (by simp)
        · have hsnd : (event_stream N uid cid ts pieces err
              (st_after_user_turn N uid cid (pyStrip msgtext) detected ts st)).2 =
              append_message N uid cid "assistant"
                (normalize_ws (String.join pieces)) ts
                (st_after_user_turn N uid cid (pyStrip msgtext) detected ts st) := by
            show (if normalize_ws (String.join pieces) = "" then _ else _) = _
            rw [if_neg hf]
          rw [get_chat_history_eq]
          show (event_stream N uid cid ts pieces err
            (st_after_user_turn N uid cid (pyStrip msgtext) detected ts st)).2.histories
              (chat_history_key uid cid) ≠ []
          rw [hsnd, append_message_histories_self N hN]
          exact takeLast_ne_nil N hN _ (by simp)

theorem no_ownership_check_witness :
    get_chat_history "u9" "ghost" emptyStore = []
    ∧ get_chat_history "u9" "ghost"
        (api_send 20 ⟨some "u9", some "ghost", some "hello"⟩ none "abcdefgh" 0
          (.stream ["ok"] none) emptyStore).2 ≠ []
    ∧ list_user_chats "u9"
        (api_send 20 ⟨some "u9", some "ghost", some "hello"⟩ none "abcdefgh" 0
          (.stream ["ok"] none) emptyStore).2 = list_user_chats "u9" emptyStore := by
  have h := no_ownership_check 20 (by norm_num) "u9" "ghost" "user" "x" 0
  have h3 := h.2.2 "hello" none "abcdefgh" (.stream ["ok"] none) emptyStore
    (by decide) (by decide)
  exact ⟨h.1 emptyStore rfl, h3.2, h3.1⟩

end Ira
